import Mathlib

/-!
Verification of the pipelining source adapters in
`src/keyvi/3rdparty/tpie/tpie/pipelining/ami_glue.h`.

The file under review defines three glue nodes bridging the legacy AMI
containers into the pipelining framework:

* `bits::input_ami_stream_t` — push source over `tpie::ami::stream`;
* `bits::input_ami_stack_t`  — push source over `tpie::ami::stack`;
* `bits::pull_input_ami_stack_t` — pull source over `tpie::ami::stack`;

plus three public builders (`input_ami_stream`, `input_ami_stack`,
`pull_input_ami_stack`).

The AMI containers themselves (`tpie::ami::stream`, `tpie::ami::stack`) and
the `node` progress services (`forward`, `set_steps`, `step`) are collaborators
that live outside the reviewed file; they are modelled from the specification
(read view of a stream / LIFO stack, with an `ok` / end-of-input / other-error
status on each read, and an optional injected failure point standing for an
I/O error reported by the container).  The adapter methods themselves are
translated directly from the C++ source.
-/

set_option autoImplicit false

namespace AmiGlue

/-- Status codes of the AMI error enumeration, as the spec describes them:
`ok` (`NO_ERROR`), end-of-input (`END_OF_STREAM`), and a representative of
every other (fatal) outcome, here `GENERIC_FAILURE`. -/
inductive AmiErrCode where
  | NO_ERROR
  | END_OF_STREAM
  | GENERIC_FAILURE
deriving DecidableEq, Repr

/-- Modelled from the spec: `tpie::ami::stream` read view — an ordered finite
sequence of items with a cursor.  `failAt = some k` injects a container I/O
error on the read attempted at cursor position `k` (the spec allows
`read_next` to report a status that is neither `ok` nor `end_of_stream`);
`failAt = none` is a nominal, error-free container. -/
structure AmiStream (T : Type) where
  items : List T
  pos : Nat
  failAt : Option Nat
deriving DecidableEq, Repr

namespace AmiStream

variable {T : Type}

/-- Modelled from the spec: `stream.stream_len()` — the number of items. -/
def stream_len (s : AmiStream T) : Nat := s.items.length

/-- Modelled from the spec: `stream.seek(p)` — set the cursor. -/
def seek (s : AmiStream T) (p : Nat) : AmiStream T := { s with pos := p }

/-- Modelled from the spec: `stream.read_item(&item)` — at the injected
failure point return an error status with no item; otherwise return the item
under the cursor and advance, or `END_OF_STREAM` past the end. -/
def read_item (s : AmiStream T) : AmiErrCode × Option T × AmiStream T :=
  if s.failAt = some s.pos then (AmiErrCode.GENERIC_FAILURE, none, s)
  else
    match s.items.get? s.pos with
    | some x => (AmiErrCode.NO_ERROR, some x, { s with pos := s.pos + 1 })
    | none => (AmiErrCode.END_OF_STREAM, none, s)

end AmiStream

/-- Modelled from the spec: `tpie::ami::stack` read view — a finite LIFO
collection, `items` listed tops-first.  `popped` counts the pops performed so
far; `failAt = some k` injects a container error on the pop attempted after
`k` successful pops (the spec allows `pop` to report a status that is neither
`ok` nor end-of-input); `failAt = none` is a nominal container. -/
structure AmiStack (T : Type) where
  items : List T
  popped : Nat
  failAt : Option Nat
deriving DecidableEq, Repr

namespace AmiStack

variable {T : Type}

/-- Modelled from the spec: `stack.size()`. -/
def size (s : AmiStack T) : Nat := s.items.length

/-- Modelled from the spec: `stack.is_empty()`. -/
def is_empty (s : AmiStack T) : Bool := s.items.isEmpty

/-- Modelled from the spec: `stack.pop(&item)` — at the injected failure
point return an error status with no item; otherwise remove and return the
top, or `END_OF_STREAM` when the stack is empty. -/
def pop (s : AmiStack T) : AmiErrCode × Option T × AmiStack T :=
  if s.failAt = some s.popped then (AmiErrCode.GENERIC_FAILURE, none, s)
  else
    match s.items with
    | [] => (AmiErrCode.END_OF_STREAM, none, s)
    | x :: rest =>
        (AmiErrCode.NO_ERROR, some x, { s with items := rest, popped := s.popped + 1 })

end AmiStack

/-- Observables of one `go()` of a push source: the sequence of `dest.push`
calls, the cumulative sum of the `step(·)` calls, the status whose observation
terminated the read loop, and the final container state. -/
structure GoResult (T : Type) (C : Type) where
  pushes : List T
  stepSum : Nat
  exitStatus : AmiErrCode
  final : C
deriving DecidableEq, Repr

/-- Values published during `propagate()`: the scalar forwarded under the key
`"items"` and the total declared via `set_steps`. -/
structure PropagateResult where
  forwarded_items : Nat
  declared_steps : Nat
deriving DecidableEq, Repr

section StreamAdapter

variable {T : Type}

/-- `input_ami_stream_t::propagate`:
`forward("items", stream.stream_len()); set_steps(stream.stream_len());`. -/
def input_ami_stream_propagate (s : AmiStream T) : PropagateResult :=
  { forwarded_items := s.stream_len, declared_steps := s.stream_len }

/-- `input_ami_stream_t::begin`: `stream.seek(0);`. -/
def input_ami_stream_begin (s : AmiStream T) : AmiStream T := s.seek 0

/-- The loop of `input_ami_stream_t::go`:
`while (stream.read_item(&item) == tpie::ami::NO_ERROR) { dest.push(*item); step(1); }`.
Fuel-indexed so the recursion is structural; a read with status `NO_ERROR`
carries an item, pushes it, adds one step and continues; any other status
terminates the loop.  Callers pass fuel strictly larger than the number of
reads the loop can make, so the fuel-0 branch is never reached. -/
def input_ami_stream_goLoop (fuel : Nat) (s : AmiStream T) : GoResult T (AmiStream T) :=
  match fuel with
  | 0 => ⟨[], 0, AmiErrCode.NO_ERROR, s⟩
  | fuel + 1 =>
    match s.read_item with
    | (AmiErrCode.NO_ERROR, some x, s2) =>
        let r := input_ami_stream_goLoop fuel s2
        ⟨x :: r.pushes, r.stepSum + 1, r.exitStatus, r.final⟩
    | (e, _, s2) => ⟨[], 0, e, s2⟩

/-- `input_ami_stream_t::go`, with adequate fuel for its while loop: the loop
performs at most `stream_len` successful reads before the cursor reaches the
end, so `stream_len + 1` reads always suffice to observe the exit status. -/
def input_ami_stream_go (s : AmiStream T) : GoResult T (AmiStream T) :=
  input_ami_stream_goLoop (s.stream_len + 1) s

/-- One full run of the push-stream source: `begin` (seek to 0) then `go`.
(`propagate` publishes scalars and does not change the stream.) -/
def input_ami_stream_run (s : AmiStream T) : GoResult T (AmiStream T) :=
  input_ami_stream_go (input_ami_stream_begin s)

/-- `input_ami_stream_t::go` is a `void` member that returns normally on every
path — the C++ body raises nothing, so the embedding always produces
`Except.ok`.  The `Except` codomain makes "raises a fatal error" statable. -/
def input_ami_stream_run_result (s : AmiStream T) :
    Except String (List T × AmiStream T) :=
  Except.ok ((input_ami_stream_run s).pushes, (input_ami_stream_run s).final)

end StreamAdapter

section StackAdapter

variable {T : Type}

/-- `input_ami_stack_t::propagate`:
`forward("items", stack.size()); set_steps(stack.size());`. -/
def input_ami_stack_propagate (s : AmiStack T) : PropagateResult :=
  { forwarded_items := s.size, declared_steps := s.size }

/-- The loop of `input_ami_stack_t::go`:
`while (stack.pop(&item) == tpie::ami::NO_ERROR) { dest.push(*item); step(1); }`.
Same fuel-indexed shape as the stream loop. -/
def input_ami_stack_goLoop (fuel : Nat) (s : AmiStack T) : GoResult T (AmiStack T) :=
  match fuel with
  | 0 => ⟨[], 0, AmiErrCode.NO_ERROR, s⟩
  | fuel + 1 =>
    match s.pop with
    | (AmiErrCode.NO_ERROR, some x, s2) =>
        let r := input_ami_stack_goLoop fuel s2
        ⟨x :: r.pushes, r.stepSum + 1, r.exitStatus, r.final⟩
    | (e, _, s2) => ⟨[], 0, e, s2⟩

/-- `input_ami_stack_t::go`, with adequate fuel for its while loop: each
successful pop removes one of the `size` items, so `size + 1` pops always
suffice to observe the exit status. -/
def input_ami_stack_go (s : AmiStack T) : GoResult T (AmiStack T) :=
  input_ami_stack_goLoop (s.size + 1) s

/-- One full run of the push-stack source.  The adapter overrides no `begin`,
so the run is `go` alone (`propagate` publishes scalars and does not change
the stack). -/
def input_ami_stack_run (s : AmiStack T) : GoResult T (AmiStack T) :=
  input_ami_stack_go s

/-- `input_ami_stack_t::go` is a `void` member that returns normally on every
path — the C++ body raises nothing, so the embedding always produces
`Except.ok`.  The `Except` codomain makes "raises a fatal error" statable. -/
def input_ami_stack_run_result (s : AmiStack T) :
    Except String (List T × AmiStack T) :=
  Except.ok ((input_ami_stack_run s).pushes, (input_ami_stack_run s).final)

end StackAdapter

section PullAdapter

variable {T : Type}

/-- `pull_input_ami_stack_t::propagate`:
`forward("items", stack.size()); set_steps(stack.size());`. -/
def pull_input_ami_stack_propagate (s : AmiStack T) : PropagateResult :=
  { forwarded_items := s.size, declared_steps := s.size }

/-- `pull_input_ami_stack_t::can_pull`: `return !stack.is_empty();`. -/
def pull_input_ami_stack_can_pull (s : AmiStack T) : Bool := !s.is_empty

/-- `pull_input_ami_stack_t::pull`: `stack.pop(&item); return *item;`.
The C++ body never inspects the status returned by `pop`; it dereferences the
pointer unconditionally.  When `pop` succeeds the dereference yields the
popped item (`some x`); when `pop` fails it sets no pointer and the
dereference is invalid — the embedding marks that unguarded-dereference
outcome as `none`. -/
def pull_input_ami_stack_pull (s : AmiStack T) : Option T × AmiStack T :=
  match s.pop with
  | (AmiErrCode.NO_ERROR, some x, s2) => (some x, s2)
  | (_, _, s2) => (none, s2)

/-- Stack state after `n` calls of `pull` by the upstream consumer. -/
def pullIter (n : Nat) (s : AmiStack T) : AmiStack T :=
  match n with
  | 0 => s
  | n + 1 => pullIter n (pull_input_ami_stack_pull s).2

/-- The value returned by the `k`-th `pull` call (1-indexed): the result of
one more `pull` after `k - 1` previous ones. -/
def pullKth (s : AmiStack T) (k : Nat) : Option T :=
  (pull_input_ami_stack_pull (pullIter (k - 1) s)).1

/-- The experiment of the pull-duality law: repeatedly call `pull()` while
`can_pull()` holds, collecting the returned values in order.  Fuel-indexed;
callers pass fuel at least the stack size, which suffices for a nominal
container. -/
def pullWhileCanPull (fuel : Nat) (s : AmiStack T) : List (Option T) × AmiStack T :=
  match fuel with
  | 0 => ([], s)
  | fuel + 1 =>
    if pull_input_ami_stack_can_pull s then
      let p := pull_input_ami_stack_pull s
      let r := pullWhileCanPull fuel p.2
      (p.1 :: r.1, r.2)
    else ([], s)

end PullAdapter

section Builders

/-- Polarity of a pipeline-prefix value returned by a builder. -/
inductive PipePolarity where
  | pipe_begin
  | pullpipe_begin
deriving DecidableEq, Repr

/-- The adapter class a builder's factory instantiates.  The first three are
defined in the reviewed file; `pull_input_t` is the file-stream pull adapter
declared elsewhere in the pipelining framework. -/
inductive AdapterClass where
  | input_ami_stream_t
  | input_ami_stack_t
  | pull_input_ami_stack_t
  | pull_input_t
deriving DecidableEq, Repr

/-- The wiring a builder returns: the polarity of the pipeline-prefix wrapper
and the adapter class its factory constructs. -/
structure PipeWiring where
  polarity : PipePolarity
  adapter : AdapterClass
deriving DecidableEq, Repr

/-- `input_ami_stream(input)`:
`return pipe_begin<factory<bits::input_ami_stream_t, ...>>` over the stream. -/
def input_ami_stream_wiring : PipeWiring :=
  ⟨PipePolarity.pipe_begin, AdapterClass.input_ami_stream_t⟩

/-- `input_ami_stack(input)`:
`return pipe_begin<factory<bits::input_ami_stack_t, ...>>` over the stack. -/
def input_ami_stack_wiring : PipeWiring :=
  ⟨PipePolarity.pipe_begin, AdapterClass.input_ami_stack_t⟩

/-- `pull_input_ami_stack(fs)`:
`return pullpipe_begin<termfactory<bits::pull_input_t<T>, tpie::ami::stack<T> &>>(fs)`.
The source names `bits::pull_input_t<T>` here, not the
`bits::pull_input_ami_stack_t<T>` defined just above it in the same file. -/
def pull_input_ami_stack_wiring : PipeWiring :=
  ⟨PipePolarity.pullpipe_begin, AdapterClass.pull_input_t⟩

end Builders

section StreamLemmas

variable {T : Type}

/-- `read_item` on a nominal stream with the cursor strictly inside the
items: status `NO_ERROR`, the item under the cursor, cursor advanced. -/
theorem read_item_ok (items : List T) (pos : Nat) (hlt : pos < items.length) :
    (⟨items, pos, none⟩ : AmiStream T).read_item =
      (AmiErrCode.NO_ERROR, some (items.get ⟨pos, hlt⟩), ⟨items, pos + 1, none⟩) := by
  simp [AmiStream.read_item, List.getElem?_eq_getElem hlt, List.get_eq_getElem]

/-- `read_item` on a nominal stream with the cursor at or past the end:
status `END_OF_STREAM`, stream unchanged. -/
theorem read_item_end (items : List T) (pos : Nat) (hge : items.length ≤ pos) :
    (⟨items, pos, none⟩ : AmiStream T).read_item =
      (AmiErrCode.END_OF_STREAM, none, ⟨items, pos, none⟩) := by
  simp [AmiStream.read_item, List.getElem?_eq_none hge]

/-- The `go` loop of the push-stream source on a nominal stream drains the
items from the cursor to the end, in order, one `step(1)` per item, exits on
`END_OF_STREAM`, and leaves the cursor at the end. -/
theorem input_ami_stream_goLoop_nominal (fuel : Nat) :
    ∀ (items : List T) (pos : Nat), pos ≤ items.length →
      items.length - pos < fuel →
      input_ami_stream_goLoop fuel (⟨items, pos, none⟩ : AmiStream T) =
        ⟨items.drop pos, items.length - pos, AmiErrCode.END_OF_STREAM,
         ⟨items, items.length, none⟩⟩ := by
  induction fuel with
  | zero => intro items pos _ h3; omega
  | succ fuel ih =>
    intro items pos h2 h3
    rcases Nat.lt_or_ge pos items.length with hlt | hge
    · simp only [input_ami_stream_goLoop, read_item_ok items pos hlt]
      rw [ih items (pos + 1) hlt (by omega)]
      rw [List.drop_eq_getElem_cons hlt]
      simp only [GoResult.mk.injEq, List.get_eq_getElem, true_and, and_true]
      omega
    · have hpos : pos = items.length := Nat.le_antisymm h2 hge
      subst hpos
      simp only [input_ami_stream_goLoop, read_item_end items items.length (le_refl _)]
      simp [List.drop_length]

/-- `read_item` at the injected failure point: an error status, no item,
stream unchanged. -/
theorem read_item_fail (items : List T) (pos : Nat) :
    (⟨items, pos, some pos⟩ : AmiStream T).read_item =
      (AmiErrCode.GENERIC_FAILURE, none, ⟨items, pos, some pos⟩) := by
  simp [AmiStream.read_item]

/-- `read_item` away from the injected failure point, cursor inside the
items: behaves like the nominal `ok` read. -/
theorem read_item_ok_of_ne (items : List T) (pos k : Nat) (hne : k ≠ pos)
    (hlt : pos < items.length) :
    (⟨items, pos, some k⟩ : AmiStream T).read_item =
      (AmiErrCode.NO_ERROR, some (items.get ⟨pos, hlt⟩), ⟨items, pos + 1, some k⟩) := by
  simp [AmiStream.read_item, hne, List.getElem?_eq_getElem hlt, List.get_eq_getElem]

/-- `read_item` away from the injected failure point, cursor past the end:
`END_OF_STREAM`. -/
theorem read_item_end_of_ne (items : List T) (pos k : Nat) (hne : k ≠ pos)
    (hge : items.length ≤ pos) :
    (⟨items, pos, some k⟩ : AmiStream T).read_item =
      (AmiErrCode.END_OF_STREAM, none, ⟨items, pos, some k⟩) := by
  simp [AmiStream.read_item, hne, List.getElem?_eq_none hge]

/-- The `go` loop of the push-stream source on a stream whose read fails at
position `k` within the items: it pushes exactly the items at positions
`pos ≤ i < k`, exits on the error status, and returns normally with the
cursor left at `k`. -/
theorem input_ami_stream_goLoop_fail (fuel : Nat) :
    ∀ (items : List T) (pos k : Nat), pos ≤ k → k ≤ items.length →
      k - pos < fuel →
      input_ami_stream_goLoop fuel (⟨items, pos, some k⟩ : AmiStream T) =
        ⟨(items.take k).drop pos, k - pos, AmiErrCode.GENERIC_FAILURE,
         ⟨items, k, some k⟩⟩ := by
  induction fuel with
  | zero => intro items pos k _ _ h3; omega
  | succ fuel ih =>
    intro items pos k h1 h2 h3
    rcases Nat.lt_or_ge pos k with hlt | hge
    · have hlen : pos < items.length := by omega
      simp only [input_ami_stream_goLoop,
        read_item_ok_of_ne items pos k (by omega) hlen]
      rw [ih items (pos + 1) k hlt h2 (by omega)]
      have htk : pos < (items.take k).length := by
        rw [List.length_take]; omega
      rw [List.drop_eq_getElem_cons htk]
      simp only [GoResult.mk.injEq, List.get_eq_getElem, true_and, and_true,
        List.getElem_take]
      omega
    · have hpos : pos = k := Nat.le_antisymm h1 hge
      subst hpos
      simp only [input_ami_stream_goLoop, read_item_fail items pos]
      have : (items.take pos).drop pos = [] :=
        List.drop_eq_nil_of_le (by rw [List.length_take]; omega)
      simp [this]

/-- The `go` loop of the push-stream source on a stream whose injected
failure point lies beyond the end of the items: the failure is never reached,
so the run is the nominal one (exit on `END_OF_STREAM`). -/
theorem input_ami_stream_goLoop_failLate (fuel : Nat) :
    ∀ (items : List T) (pos k : Nat), pos ≤ items.length →
      items.length < k → items.length - pos < fuel →
      input_ami_stream_goLoop fuel (⟨items, pos, some k⟩ : AmiStream T) =
        ⟨items.drop pos, items.length - pos, AmiErrCode.END_OF_STREAM,
         ⟨items, items.length, some k⟩⟩ := by
  induction fuel with
  | zero => intro items pos k _ _ h3; omega
  | succ fuel ih =>
    intro items pos k h2 hk h3
    rcases Nat.lt_or_ge pos items.length with hlt | hge
    · simp only [input_ami_stream_goLoop,
        read_item_ok_of_ne items pos k (by omega) hlt]
      rw [ih items (pos + 1) k hlt hk (by omega)]
      rw [List.drop_eq_getElem_cons hlt]
      simp only [GoResult.mk.injEq, List.get_eq_getElem, true_and, and_true]
      omega
    · have hpos : pos = items.length := Nat.le_antisymm h2 hge
      subst hpos
      simp only [input_ami_stream_goLoop,
        read_item_end_of_ne items items.length k (by omega) (le_refl _)]
      simp [List.drop_length]

end StreamLemmas

section StackLemmas

variable {T : Type}

/-- `pop` on a nominal non-empty stack: `NO_ERROR`, the top item, the top
removed and the pop counter advanced. -/
theorem pop_cons (x : T) (rest : List T) (p : Nat) :
    (⟨x :: rest, p, none⟩ : AmiStack T).pop =
      (AmiErrCode.NO_ERROR, some x, ⟨rest, p + 1, none⟩) := by
  simp [AmiStack.pop]

/-- `pop` on a nominal empty stack: `END_OF_STREAM`, stack unchanged. -/
theorem pop_nil (p : Nat) :
    (⟨[], p, none⟩ : AmiStack T).pop =
      (AmiErrCode.END_OF_STREAM, none, (⟨[], p, none⟩ : AmiStack T)) := by
  simp [AmiStack.pop]

/-- `pop` at the injected failure point: an error status, no item, stack
unchanged. -/
theorem pop_fail (items : List T) (m : Nat) :
    (⟨items, m, some m⟩ : AmiStack T).pop =
      (AmiErrCode.GENERIC_FAILURE, none, ⟨items, m, some m⟩) := by
  simp [AmiStack.pop]

/-- `pop` away from the injected failure point on a non-empty stack: behaves
like the nominal `ok` pop. -/
theorem pop_cons_of_ne (x : T) (rest : List T) (p m : Nat) (hne : m ≠ p) :
    (⟨x :: rest, p, some m⟩ : AmiStack T).pop =
      (AmiErrCode.NO_ERROR, some x, ⟨rest, p + 1, some m⟩) := by
  simp [AmiStack.pop, hne]

/-- `pop` away from the injected failure point on an empty stack:
`END_OF_STREAM`. -/
theorem pop_nil_of_ne (p m : Nat) (hne : m ≠ p) :
    (⟨[], p, some m⟩ : AmiStack T).pop =
      (AmiErrCode.END_OF_STREAM, none, (⟨[], p, some m⟩ : AmiStack T)) := by
  simp [AmiStack.pop, hne]

/-- The `go` loop of the push-stack source on a nominal stack drains all
items tops-first, one `step(1)` per item, exits on `END_OF_STREAM`, and
leaves the stack empty. -/
theorem input_ami_stack_goLoop_nominal (fuel : Nat) :
    ∀ (items : List T) (p : Nat), items.length < fuel →
      input_ami_stack_goLoop fuel (⟨items, p, none⟩ : AmiStack T) =
        ⟨items, items.length, AmiErrCode.END_OF_STREAM,
         ⟨[], p + items.length, none⟩⟩ := by
  induction fuel with
  | zero => intro items p h3; omega
  | succ fuel ih =>
    intro items p h3
    cases items with
    | nil =>
        simp only [input_ami_stack_goLoop, pop_nil]
        simp
    | cons x rest =>
        simp only [input_ami_stack_goLoop, pop_cons]
        rw [ih rest (p + 1) (by simp only [List.length_cons] at h3; omega)]
        simp only [GoResult.mk.injEq, List.length_cons, AmiStack.mk.injEq,
          true_and, and_true]
        omega

/-- The `go` loop of the push-stack source when the pop after `m - p` further
successes fails: it pushes exactly the topmost `m - p` items, exits on the
error status, and returns normally with the remaining items still on the
stack. -/
theorem input_ami_stack_goLoop_fail (fuel : Nat) :
    ∀ (items : List T) (p m : Nat), p ≤ m → m - p ≤ items.length →
      m - p < fuel →
      input_ami_stack_goLoop fuel (⟨items, p, some m⟩ : AmiStack T) =
        ⟨items.take (m - p), m - p, AmiErrCode.GENERIC_FAILURE,
         ⟨items.drop (m - p), m, some m⟩⟩ := by
  induction fuel with
  | zero => intro items p m _ _ h3; omega
  | succ fuel ih =>
    intro items p m h1 h2 h3
    rcases Nat.lt_or_ge p m with hlt | hge
    · cases items with
      | nil => simp at h2; omega
      | cons x rest =>
          simp only [input_ami_stack_goLoop, pop_cons_of_ne x rest p m (by omega)]
          rw [ih rest (p + 1) m hlt (by simp only [List.length_cons] at h2; omega) (by omega)]
          rw [show m - p = (m - (p + 1)) + 1 from by omega]
          simp only [List.take_succ_cons, List.drop_succ_cons]
    · have hp : p = m := Nat.le_antisymm h1 hge
      subst hp
      simp only [input_ami_stack_goLoop, pop_fail items p]
      simp [Nat.sub_self]

/-- The `go` loop of the push-stack source when the injected failure point
lies beyond the number of available pops: the failure is never reached, so
the run is the nominal one (exit on `END_OF_STREAM`). -/
theorem input_ami_stack_goLoop_failLate (fuel : Nat) :
    ∀ (items : List T) (p m : Nat), p + items.length < m →
      items.length < fuel →
      input_ami_stack_goLoop fuel (⟨items, p, some m⟩ : AmiStack T) =
        ⟨items, items.length, AmiErrCode.END_OF_STREAM,
         ⟨[], p + items.length, some m⟩⟩ := by
  induction fuel with
  | zero => intro items p m _ h3; omega
  | succ fuel ih =>
    intro items p m hm h3
    cases items with
    | nil =>
        simp only [input_ami_stack_goLoop, pop_nil_of_ne p m (by omega)]
        simp
    | cons x rest =>
        simp only [input_ami_stack_goLoop, pop_cons_of_ne x rest p m (by omega)]
        rw [ih rest (p + 1) m (by simp only [List.length_cons] at hm; omega)
          (by simp only [List.length_cons] at h3; omega)]
        simp only [GoResult.mk.injEq, List.length_cons, AmiStack.mk.injEq,
          true_and, and_true]
        omega

end StackLemmas

section PullLemmas

variable {T : Type}

/-- `pull` on a nominal non-empty stack: the popped top (valid dereference),
top removed. -/
theorem pull_cons (x : T) (rest : List T) (p : Nat) :
    pull_input_ami_stack_pull (⟨x :: rest, p, none⟩ : AmiStack T) =
      (some x, ⟨rest, p + 1, none⟩) := by
  simp [pull_input_ami_stack_pull, pop_cons]

/-- `pull` on a nominal empty stack: the pop fails and the unguarded
dereference is invalid (`none`). -/
theorem pull_nil (p : Nat) :
    pull_input_ami_stack_pull (⟨[], p, none⟩ : AmiStack T) =
      (none, (⟨[], p, none⟩ : AmiStack T)) := by
  simp [pull_input_ami_stack_pull, pop_nil]

/-- `can_pull` holds exactly on non-empty stacks. -/
theorem can_pull_iff (s : AmiStack T) :
    pull_input_ami_stack_can_pull s = true ↔ s.items ≠ [] := by
  simp [pull_input_ami_stack_can_pull, AmiStack.is_empty, List.isEmpty_iff]

/-- After `n ≤ size` pulls on a nominal stack, the topmost `n` items are
gone and the rest remain in order. -/
theorem pullIter_nominal :
    ∀ (n : Nat) (items : List T) (p : Nat), n ≤ items.length →
      pullIter n (⟨items, p, none⟩ : AmiStack T) =
        ⟨items.drop n, p + n, none⟩ := by
  intro n
  induction n with
  | zero => intro items p _; simp [pullIter]
  | succ n ih =>
    intro items p h
    cases items with
    | nil => simp at h
    | cons x rest =>
        simp only [pullIter, pull_cons]
        rw [ih rest (p + 1) (by simp only [List.length_cons] at h; omega)]
        simp only [List.drop_succ_cons, AmiStack.mk.injEq, true_and, and_true]
        omega

/-- Pulling while `can_pull` holds on a nominal stack yields every item
tops-first, each through the valid-dereference branch, and empties the
stack. -/
theorem pullWhileCanPull_nominal (fuel : Nat) :
    ∀ (items : List T) (p : Nat), items.length ≤ fuel →
      pullWhileCanPull fuel (⟨items, p, none⟩ : AmiStack T) =
        (items.map some, ⟨[], p + items.length, none⟩) := by
  induction fuel with
  | zero =>
      intro items p h
      have hnil : items = [] := List.eq_nil_of_length_eq_zero (Nat.le_zero.mp h)
      subst hnil
      simp [pullWhileCanPull]
  | succ fuel ih =>
    intro items p h
    cases items with
    | nil =>
        simp [pullWhileCanPull, pull_input_ami_stack_can_pull, AmiStack.is_empty]
    | cons x rest =>
        simp only [pullWhileCanPull, pull_input_ami_stack_can_pull,
          AmiStack.is_empty, List.isEmpty_cons, Bool.not_false, if_true, pull_cons]
        rw [ih rest (p + 1) (by simp only [List.length_cons] at h; omega)]
        simp only [List.map_cons, List.length_cons, Prod.mk.injEq,
          AmiStack.mk.injEq, true_and, and_true]
        omega

end PullLemmas

section RunLemmas

variable {T : Type}

/-- Full nominal run of the push-stream source: `begin` rewinds to 0, the
loop pushes every item in order, takes `N` steps, exits on `END_OF_STREAM`
and leaves the cursor at the end with the contents untouched. -/
theorem input_ami_stream_run_nominal (items : List T) (pos : Nat) :
    input_ami_stream_run (⟨items, pos, none⟩ : AmiStream T) =
      ⟨items, items.length, AmiErrCode.END_OF_STREAM,
       ⟨items, items.length, none⟩⟩ := by
  have h := input_ami_stream_goLoop_nominal (items.length + 1) items 0
    (Nat.zero_le _) (by omega)
  simp only [input_ami_stream_run, input_ami_stream_go, input_ami_stream_begin,
    AmiStream.seek, AmiStream.stream_len]
  rw [h]
  simp

/-- Full run of the push-stream source when the read at position
`k ≤ N` fails: the loop pushes the first `k` items, takes `k` steps, exits on
the error status and leaves the cursor at `k`. -/
theorem input_ami_stream_run_fail (items : List T) (pos k : Nat)
    (hk : k ≤ items.length) :
    input_ami_stream_run (⟨items, pos, some k⟩ : AmiStream T) =
      ⟨items.take k, k, AmiErrCode.GENERIC_FAILURE, ⟨items, k, some k⟩⟩ := by
  have h := input_ami_stream_goLoop_fail (items.length + 1) items 0 k
    (Nat.zero_le _) hk (by omega)
  simp only [input_ami_stream_run, input_ami_stream_go, input_ami_stream_begin,
    AmiStream.seek, AmiStream.stream_len]
  rw [h]
  simp

/-- Full run of the push-stream source when the injected failure point lies
past the end: identical to the nominal run. -/
theorem input_ami_stream_run_failLate (items : List T) (pos k : Nat)
    (hk : items.length < k) :
    input_ami_stream_run (⟨items, pos, some k⟩ : AmiStream T) =
      ⟨items, items.length, AmiErrCode.END_OF_STREAM,
       ⟨items, items.length, some k⟩⟩ := by
  have h := input_ami_stream_goLoop_failLate (items.length + 1) items 0 k
    (Nat.zero_le _) hk (by omega)
  simp only [input_ami_stream_run, input_ami_stream_go, input_ami_stream_begin,
    AmiStream.seek, AmiStream.stream_len]
  rw [h]
  simp

/-- Full nominal run of the push-stack source: the loop pushes every item
tops-first, takes `N` steps, exits on `END_OF_STREAM` and empties the
stack. -/
theorem input_ami_stack_run_nominal (stk : List T) (p : Nat) :
    input_ami_stack_run (⟨stk, p, none⟩ : AmiStack T) =
      ⟨stk, stk.length, AmiErrCode.END_OF_STREAM,
       ⟨[], p + stk.length, none⟩⟩ := by
  have h := input_ami_stack_goLoop_nominal (stk.length + 1) stk p (by omega)
  simp only [input_ami_stack_run, input_ami_stack_go, AmiStack.size]
  exact h

/-- Full run of the push-stack source when the pop after `m ≤ N` successes
fails: the loop pushes the topmost `m` items, takes `m` steps, exits on the
error status and leaves the remaining items on the stack. -/
theorem input_ami_stack_run_fail (stk : List T) (m : Nat) (hm : m ≤ stk.length) :
    input_ami_stack_run (⟨stk, 0, some m⟩ : AmiStack T) =
      ⟨stk.take m, m, AmiErrCode.GENERIC_FAILURE,
       ⟨stk.drop m, m, some m⟩⟩ := by
  have h := input_ami_stack_goLoop_fail (stk.length + 1) stk 0 m
    (Nat.zero_le _) (by omega) (by omega)
  simp only [input_ami_stack_run, input_ami_stack_go, AmiStack.size]
  simpa using h

/-- Full run of the push-stack source when the injected failure point lies
past the number of available pops: identical to the nominal run. -/
theorem input_ami_stack_run_failLate (stk : List T) (m : Nat)
    (hm : stk.length < m) :
    input_ami_stack_run (⟨stk, 0, some m⟩ : AmiStack T) =
      ⟨stk, stk.length, AmiErrCode.END_OF_STREAM,
       ⟨[], stk.length, some m⟩⟩ := by
  have h := input_ami_stack_goLoop_failLate (stk.length + 1) stk 0 m
    (by omega) (by omega)
  simp only [input_ami_stack_run, input_ami_stack_go, AmiStack.size]
  simpa using h

end RunLemmas

section Claims

variable {T : Type}

/-- C1: Count fidelity.  For both push-source adapters over a nominal
container (the same, unmutated container state in `propagate` and `go`), the
number of `push` calls made into the downstream during `go` equals the value
published as `forward("items", N)` during `propagate`, which also equals the
`set_steps` total. -/
theorem C1_count_fidelity (items : List T) (pos : Nat) (stk : List T) (p : Nat) :
    ((input_ami_stream_run (⟨items, pos, none⟩ : AmiStream T)).pushes.length =
        (input_ami_stream_propagate (⟨items, pos, none⟩ : AmiStream T)).forwarded_items ∧
      (input_ami_stream_propagate (⟨items, pos, none⟩ : AmiStream T)).forwarded_items =
        (input_ami_stream_propagate (⟨items, pos, none⟩ : AmiStream T)).declared_steps) ∧
    ((input_ami_stack_run (⟨stk, p, none⟩ : AmiStack T)).pushes.length =
        (input_ami_stack_propagate (⟨stk, p, none⟩ : AmiStack T)).forwarded_items ∧
      (input_ami_stack_propagate (⟨stk, p, none⟩ : AmiStack T)).forwarded_items =
        (input_ami_stack_propagate (⟨stk, p, none⟩ : AmiStack T)).declared_steps) := by
  rw [input_ami_stream_run_nominal, input_ami_stack_run_nominal]
  exact ⟨⟨rfl, rfl⟩, ⟨rfl, rfl⟩⟩

/-- C2: Order fidelity (stream).  `begin` seeks the stream to position 0, and
for any initial contents `[a0, …, a_{N−1}]` the push-stream source's `go`
pushes exactly that sequence, in that order, into the downstream. -/
theorem C2_stream_order (items : List T) (pos : Nat) :
    (input_ami_stream_begin (⟨items, pos, none⟩ : AmiStream T)).pos = 0 ∧
    (input_ami_stream_run (⟨items, pos, none⟩ : AmiStream T)).pushes = items := by
  refine ⟨rfl, ?_⟩
  rw [input_ami_stream_run_nominal]

/-- C3: Order fidelity (stack).  For any initial tops-first contents
`[t0, …, t_{N−1}]` the push-stack source's `go` pushes exactly that sequence,
in that order, and on nominal completion the stack is empty afterwards. -/
theorem C3_stack_order (stk : List T) (p : Nat) :
    (input_ami_stack_run (⟨stk, p, none⟩ : AmiStack T)).pushes = stk ∧
    (input_ami_stack_run (⟨stk, p, none⟩ : AmiStack T)).final.is_empty = true := by
  rw [input_ami_stack_run_nominal]
  exact ⟨rfl, rfl⟩

/-- C8: Frame effect of the push-stream source.  After a complete run
(`propagate`, `begin`, `go`) over a nominal stream, the stream's contents were
never written (the item list is unchanged, hence so is the length) and the
cursor is at end-of-stream. -/
theorem C8_stream_frame (items : List T) (pos : Nat) :
    (input_ami_stream_run (⟨items, pos, none⟩ : AmiStream T)).final.items = items ∧
    (input_ami_stream_run (⟨items, pos, none⟩ : AmiStream T)).final.stream_len =
      (⟨items, pos, none⟩ : AmiStream T).stream_len ∧
    (input_ami_stream_run (⟨items, pos, none⟩ : AmiStream T)).final.pos =
      (input_ami_stream_run (⟨items, pos, none⟩ : AmiStream T)).final.stream_len := by
  rw [input_ami_stream_run_nominal]
  exact ⟨rfl, rfl, rfl⟩

/-- C9: Progress monotonicity.  Within a single `go` of either push-source
adapter, the cumulative sum of the `step(·)` calls never exceeds the value
declared via `set_steps` during `propagate` — for every container, also in
the presence of a container error.  (Each `step` call adds 1, so the final
cumulative sum bounds every intermediate one.) -/
theorem C9_step_bound (items : List T) (pos : Nat) (o : Option Nat)
    (stk : List T) (q : Option Nat) :
    (input_ami_stream_run (⟨items, pos, o⟩ : AmiStream T)).stepSum ≤
      (input_ami_stream_propagate (⟨items, pos, o⟩ : AmiStream T)).declared_steps ∧
    (input_ami_stack_run (⟨stk, 0, q⟩ : AmiStack T)).stepSum ≤
      (input_ami_stack_propagate (⟨stk, 0, q⟩ : AmiStack T)).declared_steps := by
  constructor
  · cases o with
    | none =>
        rw [input_ami_stream_run_nominal]
        exact le_refl _
    | some k =>
        rcases le_or_lt k items.length with hk | hk
        · rw [input_ami_stream_run_fail items pos k hk]
          exact hk
        · rw [input_ami_stream_run_failLate items pos k hk]
          exact le_refl _
  · cases q with
    | none =>
        rw [input_ami_stack_run_nominal]
        exact le_refl _
    | some m =>
        rcases le_or_lt m stk.length with hm | hm
        · rw [input_ami_stack_run_fail stk m hm]
          exact hm
        · rw [input_ami_stack_run_failLate stk m hm]
          exact le_refl _

/-- C4 counterexample: on the 2-item stream whose second read reports an
error status, `go` observes a status that is neither `ok` nor end-of-input,
yet returns normally (`Except.ok`, no fatal error) after pushing only the
one-item prefix — refuting the claim that a fatal runtime error is raised. -/
theorem C4_counterexample :
    (input_ami_stream_run (⟨[10, 20], 0, some 1⟩ : AmiStream Nat)).exitStatus ≠
        AmiErrCode.NO_ERROR ∧
    (input_ami_stream_run (⟨[10, 20], 0, some 1⟩ : AmiStream Nat)).exitStatus ≠
        AmiErrCode.END_OF_STREAM ∧
    input_ami_stream_run_result (⟨[10, 20], 0, some 1⟩ : AmiStream Nat) =
      Except.ok ([10], ⟨[10, 20], 1, some 1⟩) :=
  ⟨by decide, by decide, rfl⟩

/-- C4 amended: for both push-source adapters, whenever `read_next`/`pop`
reports a status that is neither `ok` nor end-of-input (injected strictly
before the natural end of the container), `go` exits its loop on that status
and returns normally, having pushed exactly the prefix of items delivered
before the failing call; no fatal error is raised. -/
theorem C4_amended (items stk : List T) (k m : Nat)
    (hk : k < items.length) (hm : m < stk.length) :
    ((input_ami_stream_run (⟨items, 0, some k⟩ : AmiStream T)).exitStatus =
        AmiErrCode.GENERIC_FAILURE ∧
      input_ami_stream_run_result (⟨items, 0, some k⟩ : AmiStream T) =
        Except.ok (items.take k, ⟨items, k, some k⟩)) ∧
    ((input_ami_stack_run (⟨stk, 0, some m⟩ : AmiStack T)).exitStatus =
        AmiErrCode.GENERIC_FAILURE ∧
      input_ami_stack_run_result (⟨stk, 0, some m⟩ : AmiStack T) =
        Except.ok (stk.take m, ⟨stk.drop m, m, some m⟩)) := by
  refine ⟨⟨?_, ?_⟩, ⟨?_, ?_⟩⟩
  · rw [input_ami_stream_run_fail items 0 k (le_of_lt hk)]
  · simp only [input_ami_stream_run_result,
      input_ami_stream_run_fail items 0 k (le_of_lt hk)]
  · rw [input_ami_stack_run_fail stk m (le_of_lt hm)]
  · simp only [input_ami_stack_run_result,
      input_ami_stack_run_fail stk m (le_of_lt hm)]

/-- C4 witness: the amended statement evaluated on the stream `[10, 20]`
failing at position 1 and the stack `[5, 6, 7]` failing after 2 pops. -/
theorem C4_amended_witness :
    1 < ([10, 20] : List Nat).length ∧ 2 < ([5, 6, 7] : List Nat).length ∧
    (((input_ami_stream_run (⟨[10, 20], 0, some 1⟩ : AmiStream Nat)).exitStatus =
        AmiErrCode.GENERIC_FAILURE ∧
      input_ami_stream_run_result (⟨[10, 20], 0, some 1⟩ : AmiStream Nat) =
        Except.ok (List.take 1 [10, 20], ⟨[10, 20], 1, some 1⟩)) ∧
     ((input_ami_stack_run (⟨[5, 6, 7], 0, some 2⟩ : AmiStack Nat)).exitStatus =
        AmiErrCode.GENERIC_FAILURE ∧
      input_ami_stack_run_result (⟨[5, 6, 7], 0, some 2⟩ : AmiStack Nat) =
        Except.ok (List.take 2 [5, 6, 7], ⟨List.drop 2 [5, 6, 7], 2, some 2⟩))) :=
  ⟨by decide, by decide, C4_amended [10, 20] [5, 6, 7] 1 2 (by decide) (by decide)⟩

/-- C5: Pull duality.  For every initial (nominal) stack, the sequence of
values obtained by repeatedly calling `pull()` while `can_pull()` holds
equals the sequence of items a push-stack source's `go` pushes into its
downstream on the same initial stack (every pull taking the
valid-dereference branch). -/
theorem C5_pull_duality (stk : List T) :
    (pullWhileCanPull (AmiStack.size (⟨stk, 0, none⟩ : AmiStack T))
        (⟨stk, 0, none⟩ : AmiStack T)).1 =
      (input_ami_stack_run (⟨stk, 0, none⟩ : AmiStack T)).pushes.map some := by
  rw [input_ami_stack_run_nominal,
    pullWhileCanPull_nominal (AmiStack.size (⟨stk, 0, none⟩ : AmiStack T)) stk 0
      (le_refl _)]

/-- C6: For the pull-stack source over a nominal stack, `can_pull` returns
true iff the stack is non-empty, and for every `1 ≤ k ≤ size` the `k`-th
`pull()` (all of them successful) returns the item that was at stack depth
`k − 1` (tops-first index `k − 1`) at pipeline start. -/
theorem C6_pull_kth (stk : List T) (k : Nat) (h1 : 1 ≤ k) (h2 : k ≤ stk.length) :
    (pull_input_ami_stack_can_pull (⟨stk, 0, none⟩ : AmiStack T) = true ↔
        stk ≠ []) ∧
    pullKth (⟨stk, 0, none⟩ : AmiStack T) k = stk[k - 1]? := by
  refine ⟨by simpa using can_pull_iff (⟨stk, 0, none⟩ : AmiStack T), ?_⟩
  unfold pullKth
  rw [pullIter_nominal (k - 1) stk 0 (by omega)]
  cases hd : stk.drop (k - 1) with
  | nil =>
      exfalso
      rw [List.drop_eq_nil_iff] at hd
      omega
  | cons y rest =>
      rw [pull_cons]
      have h0 := List.getElem?_drop stk (k - 1) 0
      rw [hd] at h0
      simpa using h0

/-- C6 witness: over the stack `[5, 7]` (tops-first) the second pull returns
the item at depth 1. -/
theorem C6_pull_kth_witness :
    1 ≤ 2 ∧ 2 ≤ ([5, 7] : List Nat).length ∧
    pullKth (⟨[5, 7], 0, none⟩ : AmiStack Nat) 2 = ([5, 7] : List Nat)[2 - 1]? :=
  ⟨by decide, by decide, (C6_pull_kth [5, 7] 2 (by decide) (by decide)).2⟩

/-- C7: Builder wiring.  `input_ami_stream` and `input_ami_stack` return
`pipe_begin` prefixes over their adapters from this layer, but
`pull_input_ami_stack` returns a `pullpipe_begin` whose factory names
`bits::pull_input_t`, not the pull-stack adapter
`bits::pull_input_ami_stack_t` defined (and left unreferenced) in the same
file — the embedding evaluated at the claim's failing point. -/
theorem C7_builder_wiring :
    input_ami_stream_wiring =
        ⟨PipePolarity.pipe_begin, AdapterClass.input_ami_stream_t⟩ ∧
    input_ami_stack_wiring =
        ⟨PipePolarity.pipe_begin, AdapterClass.input_ami_stack_t⟩ ∧
    pull_input_ami_stack_wiring =
        ⟨PipePolarity.pullpipe_begin, AdapterClass.pull_input_t⟩ ∧
    pull_input_ami_stack_wiring.adapter ≠ AdapterClass.pull_input_ami_stack_t :=
  ⟨rfl, rfl, rfl, by decide⟩

/-- C10: The pull-stack source's `pull` never inspects the status of `pop`.
Over a nominal stack, when `can_pull()` returned true (the stack is
non-empty) the pop succeeds (`NO_ERROR`) and the unconditional dereference is
valid, so the unguarded-dereference branch (`none`) is unreachable; without
that precondition the pop fails and the unguarded dereference is taken. -/
theorem C10_pull_unguarded (stk : List T) (p : Nat) :
    (pull_input_ami_stack_can_pull (⟨stk, p, none⟩ : AmiStack T) = true →
      ((⟨stk, p, none⟩ : AmiStack T).pop.1 = AmiErrCode.NO_ERROR ∧
        (pull_input_ami_stack_pull (⟨stk, p, none⟩ : AmiStack T)).1.isSome = true)) ∧
    (pull_input_ami_stack_can_pull (⟨stk, p, none⟩ : AmiStack T) = false →
      (pull_input_ami_stack_pull (⟨stk, p, none⟩ : AmiStack T)).1 = none) := by
  cases stk with
  | nil =>
      constructor
      · intro h
        simp [pull_input_ami_stack_can_pull, AmiStack.is_empty] at h
      · intro _
        rw [pull_nil]
  | cons x rest =>
      constructor
      · intro _
        constructor
        · rw [pop_cons]
        · rw [pull_cons]
          rfl
      · intro h
        simp [pull_input_ami_stack_can_pull, AmiStack.is_empty] at h

/-- C10 witness: on the one-item stack, `can_pull` holds, the pop reports
`NO_ERROR` and the dereference is valid. -/
theorem C10_pull_unguarded_witness :
    pull_input_ami_stack_can_pull (⟨[3], 0, none⟩ : AmiStack Nat) = true ∧
    ((⟨[3], 0, none⟩ : AmiStack Nat).pop.1 = AmiErrCode.NO_ERROR ∧
      (pull_input_ami_stack_pull (⟨[3], 0, none⟩ : AmiStack Nat)).1.isSome = true) :=
  ⟨by decide, (C10_pull_unguarded [3] 0).1 (by decide)⟩

end Claims

end AmiGlue
